import Mathlib

/-!
Shallow embedding of `src/api.js` of the videojs-languages repository.

The module under verification composes five small functions:
`nonEmptyStr`, `normalizePatterns`, `normalizeDir`, `destination`,
`findSources`, `processSources` and the entry point `convert`.

External collaborators are modelled as parameters:
  * the glob resolver `globby.sync` becomes a function argument
    `glob : List JSVal → List String`;
  * the directory creator `mkdirp.sync` (which either succeeds or throws)
    becomes a success predicate `mk : String → Bool`; a thrown error is
    `mk s = false`, caught by `normalizeDir`.

JavaScript dynamic values relevant to the code (strings, arrays, null /
undefined, anything else) are modelled by the inductive type `JSVal`.

The Node.js path helpers `path.dirname`, `path.basename`, `path.extname`,
`path.join` (posix flavour) are translated from Node's own implementation,
loop by loop, in the namespace `NodePath`.
-/

/-- Characters matched by the JavaScript regular-expression class for
whitespace, which the source uses through the test `/\S/.test(v)`. -/
def isJsWhitespace (c : Char) : Bool :=
  let n := c.toNat
  n == 9 || n == 10 || n == 11 || n == 12 || n == 13 || n == 32 ||
  n == 0xa0 || n == 0x1680 || (0x2000 ≤ n && n ≤ 0x200a) ||
  n == 0x2028 || n == 0x2029 || n == 0x202f || n == 0x205f ||
  n == 0x3000 || n == 0xfeff

/-- An element of a JavaScript array as far as `api.js` inspects one: the
only test ever applied to an element is `nonEmptyStr`, i.e. whether it is a
string and which string, so every non-string element (number, object,
nested array, `null`, ...) is represented by one constructor. -/
inductive JSPrim where
  | str : String → JSPrim
  | nonstr : JSPrim
deriving DecidableEq, Repr

/-- A JavaScript value as far as `api.js` inspects one: a string, an array
of values, `null`/`undefined`, or any other value (number, object, ...). -/
inductive JSVal where
  | str : String → JSVal
  | arr : List JSPrim → JSVal
  | null : JSVal
  | other : JSVal
deriving DecidableEq, Repr

namespace NodePath

/-- Index of the last occurrence of `t` in `l`, or `-1`
(JavaScript `String.prototype.lastIndexOf`). Accumulator-passing loop. -/
def lastIndexOfGo (t : Char) : List Char → Nat → Int → Int
  | [], _, acc => acc
  | c :: cs, i, acc => lastIndexOfGo t cs (i + 1) (if c == t then (i : Int) else acc)

/-- JavaScript `res.lastIndexOf(separator)` on a list of characters. -/
def lastIndexOf (l : List Char) (t : Char) : Int :=
  lastIndexOfGo t l 0 (-1)

/-- The core loop of Node's `normalizeString(path, allowAboveRoot, '/', ...)`,
translated iteration by iteration.  `fuel` bounds the number of remaining
iterations (the JavaScript loop runs `i` from `0` to `path.length`
inclusive, each iteration advancing `i` by one, so `length + 2` fuel always
suffices); `i` is the loop index, `res`, `lastSegmentLength`, `lastSlash`
and `dots` are the loop variables of the original. -/
def normLoop (l : List Char) (allowAboveRoot : Bool) :
    Nat → Nat → List Char → Int → Int → Int → List Char
  | 0, _, res, _, _, _ => res
  | fuel + 1, i, res, lastSegmentLength, lastSlash, dots =>
    let len := l.length
    if i > len then res
    else if i == len && decide (0 < len) && (l.getD (len - 1) ' ' == '/') then
      -- at i == length the loop breaks when the previous character was a
      -- separator
      res
    else
      let code : Char := if i < len then l.getD i ' ' else '/'
      if code == '/' then
        if lastSlash == (i : Int) - 1 || dots == 1 then
          normLoop l allowAboveRoot fuel (i + 1) res lastSegmentLength (i : Int) 0
        else if dots == 2 then
          if res.length < 2 || lastSegmentLength != 2 ||
             !(res.getD (res.length - 1) ' ' == '.') ||
             !(res.getD (res.length - 2) ' ' == '.') then
            if res.length > 2 then
              let lastSlashIndex := lastIndexOf res '/'
              if lastSlashIndex == -1 then
                normLoop l allowAboveRoot fuel (i + 1) [] 0 (i : Int) 0
              else
                let res2 := res.take lastSlashIndex.toNat
                let lsl2 := (res2.length : Int) - 1 - lastIndexOf res2 '/'
                normLoop l allowAboveRoot fuel (i + 1) res2 lsl2 (i : Int) 0
            else if res.length != 0 then
              normLoop l allowAboveRoot fuel (i + 1) [] 0 (i : Int) 0
            else
              -- res is empty: fall through to the allowAboveRoot step
              if allowAboveRoot then
                normLoop l allowAboveRoot fuel (i + 1) ['.', '.'] 2 (i : Int) 0
              else
                normLoop l allowAboveRoot fuel (i + 1) res lastSegmentLength (i : Int) 0
          else
            -- the right-most segment of res is already ".."
            if allowAboveRoot then
              let res2 := if res.length > 0 then res ++ ['/', '.', '.'] else ['.', '.']
              normLoop l allowAboveRoot fuel (i + 1) res2 2 (i : Int) 0
            else
              normLoop l allowAboveRoot fuel (i + 1) res lastSegmentLength (i : Int) 0
        else
          let seg := (l.drop (lastSlash + 1).toNat).take (i - (lastSlash + 1).toNat)
          let res2 := if res.length > 0 then res ++ '/' :: seg else seg
          normLoop l allowAboveRoot fuel (i + 1) res2 ((i : Int) - 1 - lastSlash) (i : Int) 0
      else if code == '.' && dots != -1 then
        normLoop l allowAboveRoot fuel (i + 1) res lastSegmentLength lastSlash (dots + 1)
      else
        normLoop l allowAboveRoot fuel (i + 1) res lastSegmentLength lastSlash (-1)

/-- Node's internal `normalizeString` (posix separator). -/
def normalizeString (p : String) (allowAboveRoot : Bool) : String :=
  ⟨normLoop p.toList allowAboveRoot (p.toList.length + 2) 0 [] 0 (-1) 0⟩

/-- Node's `path.posix.normalize`. -/
def normalize (p : String) : String :=
  if p.length == 0 then "."
  else
    let l := p.toList
    let isAbsolute := l.getD 0 ' ' == '/'
    let trailingSeparator := l.getD (l.length - 1) ' ' == '/'
    let p2 := normalizeString p (!isAbsolute)
    if p2.length == 0 then
      if isAbsolute then "/" else if trailingSeparator then "./" else "."
    else
      let p3 := if trailingSeparator then p2 ++ "/" else p2
      if isAbsolute then "/" ++ p3 else p3

/-- Node's `path.posix.join` restricted to the two arguments used by the
source: empty arguments are skipped, the rest are joined with `/` and the
result normalized; with nothing to join, the result is ".". -/
def join2 (a b : String) : String :=
  if a.length > 0 then
    if b.length > 0 then normalize (a ++ "/" ++ b) else normalize a
  else if b.length > 0 then normalize b
  else "."

/-- The scanning loop of Node's `path.posix.dirname`: `i` runs from
`length - 1` down to `1` looking for the last separator that is not part
of a trailing run of separators; returns that index, or `-1`. -/
def dirnameLoop (l : List Char) : Nat → Bool → Int
  | 0, _ => -1
  | i + 1, matchedSlash =>
    if l.getD (i + 1) ' ' == '/' then
      if matchedSlash == false then ((i + 1 : Nat) : Int)
      else dirnameLoop l i matchedSlash
    else dirnameLoop l i false

/-- Node's `path.posix.dirname`. -/
def dirname (p : String) : String :=
  let l := p.toList
  if l.length == 0 then "."
  else
    let hasRoot := l.getD 0 ' ' == '/'
    let e := dirnameLoop l (l.length - 1) true
    if e == -1 then (if hasRoot then "/" else ".")
    else if hasRoot && e == 1 then "//"
    else ⟨l.take e.toNat⟩

/-- The scanning loop of Node's `path.posix.basename` (without the
extension argument): `i` runs from `length - 1` down to `0`; the state is
`(start, end)` plus the `matchedSlash` flag; here the index argument `j + 1`
plays the role of `i + 1`, so the scanned index is `j`. -/
def basenameLoop (l : List Char) : Nat → Nat → Int → Bool → Nat × Int
  | 0, start, e, _ => (start, e)
  | j + 1, start, e, matchedSlash =>
    if l.getD j ' ' == '/' then
      if matchedSlash == false then (j + 1, e)
      else basenameLoop l j start e matchedSlash
    else if e == -1 then basenameLoop l j start ((j + 1 : Nat) : Int) false
    else basenameLoop l j start e matchedSlash

/-- Node's `path.posix.basename`. -/
def basename (p : String) : String :=
  let l := p.toList
  let se := basenameLoop l l.length 0 (-1) true
  if se.2 == -1 then ""
  else ⟨(l.take se.2.toNat).drop se.1⟩

/-- The scanning loop of Node's `path.posix.extname`: index runs from
`length - 1` down to `0`; the state is
`(startDot, startPart, end, preDotState)` plus the `matchedSlash` flag. -/
def extnameLoop (l : List Char) :
    Nat → Int → Nat → Int → Bool → Int → Int × Nat × Int × Int
  | 0, startDot, startPart, e, _, preDotState => (startDot, startPart, e, preDotState)
  | j + 1, startDot, startPart, e, matchedSlash, preDotState =>
    let c := l.getD j ' '
    if c == '/' then
      if matchedSlash == false then (startDot, j + 1, e, preDotState)
      else extnameLoop l j startDot startPart e matchedSlash preDotState
    else
      let e2 := if e == -1 then ((j + 1 : Nat) : Int) else e
      let ms2 := if e == -1 then false else matchedSlash
      if c == '.' then
        if startDot == -1 then
          extnameLoop l j ((j : Nat) : Int) startPart e2 ms2 preDotState
        else if preDotState != 1 then
          extnameLoop l j startDot startPart e2 ms2 1
        else
          extnameLoop l j startDot startPart e2 ms2 preDotState
      else if startDot != -1 then
        extnameLoop l j startDot startPart e2 ms2 (-1)
      else
        extnameLoop l j startDot startPart e2 ms2 preDotState

/-- Node's `path.posix.extname`. -/
def extname (p : String) : String :=
  let l := p.toList
  let st := extnameLoop l l.length (-1) 0 (-1) true 0
  let startDot := st.1
  let startPart := st.2.1
  let e := st.2.2.1
  let preDotState := st.2.2.2
  if startDot == -1 || e == -1 || preDotState == 0 ||
     (preDotState == 1 && startDot == e - 1 && startDot == (startPart : Int) + 1) then
    ""
  else ⟨(l.take e.toNat).drop startDot.toNat⟩

end NodePath

/-!  The functions of `src/api.js`, translated one to one. -/

/-- `api.js` line 12: `const nonEmptyStr = v => typeof v === 'string' && /\S/.test(v);` -/
def nonEmptyStr : JSVal → Bool
  | .str s => s.toList.any (fun c => !isJsWhitespace c)
  | _ => false

/-- `nonEmptyStr` applied to an element of a patterns array. -/
def JSPrim.nonEmptyStr : JSPrim → Bool
  | .str s => s.toList.any (fun c => !isJsWhitespace c)
  | _ => false

/-- `Array.isArray(patterns)` -/
def isArray : JSVal → Bool
  | .arr _ => true
  | _ => false

/-- The elements of an array value (only inspected when `isArray`). -/
def elems : JSVal → List JSPrim
  | .arr xs => xs
  | _ => []

/-- `api.js` lines 23-37, `normalizePatterns`.
A non-empty string argument is wrapped in a one-element array; a value
that is not an array, or an array with no non-empty-string element,
yields the default `['lang/*.json']`; otherwise the array is filtered to
its non-empty-string elements. -/
def normalizePatterns (patterns : JSVal) : List JSPrim :=
  if nonEmptyStr patterns then
    match patterns with
    | .str s => [JSPrim.str s]
    | _ => []
  else if !isArray patterns || !((elems patterns).any JSPrim.nonEmptyStr) then
    [JSPrim.str "lang/*.json"]
  else
    (elems patterns).filter JSPrim.nonEmptyStr

/-- `api.js` lines 46-59, `normalizeDir`.  The collaborator `mkdirp.sync`
either succeeds or throws; `mk dir = true` models success.  A throw is
caught and the function falls through to `return null` (here `none`). -/
def normalizeDir (mk : String → Bool) (dir : JSVal) : Option String :=
  if nonEmptyStr dir then
    match dir with
    | .str s => if mk s then some s else none
    | _ => none
  else none

/-- `api.js` lines 71-78, `destination`.
`let d = dir || path.dirname(src)` : the only falsy string is the empty
one, and an absent argument (`undefined` / `null`, here `none`) is falsy.
`bn.substr(0, bn.length - 2)` keeps the first `length - 2` characters
(zero when the length is below two, as in JavaScript). -/
def destination (src : String) (dir : Option String) : String :=
  let d := match dir with
    | some s => if s == "" then NodePath.dirname src else s
    | none => NodePath.dirname src
  let bn := NodePath.basename src
  NodePath.join2 d ⟨bn.toList.take (bn.length - 2)⟩

/-- `api.js` lines 88-89, `findSources`.
`globby.sync` is the external glob resolver, passed as `glob`. -/
def findSources (glob : List JSPrim → List String) (patterns : List JSPrim) :
    List String :=
  (glob patterns).filter (fun f => NodePath.extname f == ".json")

/-- `api.js` lines 100-104, `processSources`.
The body reads `let dest = destination(src); return dest;` — the `dir`
parameter is received but never forwarded to `destination`, whose second
argument is therefore `undefined` (`none`). -/
def processSources (srces : List String) (dir : Option String) : List String :=
  srces.map (fun src =>
    let dest := destination src none
    dest)

/-- The record `{srces, dests}` returned by `convert`. -/
structure ConvertResult where
  srces : List String
  dests : List String
deriving DecidableEq, Repr

/-- `api.js` lines 122-126, `convert`, the public entry point. -/
def convert (glob : List JSPrim → List String) (mk : String → Bool)
    (patterns dir : JSVal) : ConvertResult :=
  let srces := findSources glob (normalizePatterns patterns)
  let dests := processSources srces (normalizeDir mk dir)
  ⟨srces, dests⟩

example : NodePath.dirname "lang/en.json" = "lang" := by decide
example : NodePath.basename "lang/en.json" = "en.json" := by decide
example : NodePath.extname "lang/en.json" = ".json" := by decide
example : NodePath.extname "lang/.json" = "" := by decide
example : NodePath.extname "a/b.js" = ".js" := by decide
example : NodePath.dirname "en.json" = "." := by decide
example : NodePath.join2 "lang" "en.js" = "lang/en.js" := by decide
example : NodePath.join2 "out" "en.js" = "out/en.js" := by decide
example : NodePath.join2 "a//b/" "c.js" = "a/b/c.js" := by decide
example : NodePath.join2 "a/.." "c.js" = "c.js" := by decide
example : destination "lang/en.json" none = "lang/en.js" := by decide
example : destination "lang/en.json" (some "out") = "out/en.js" := by decide
example : destination "en.json" none = "en.js" := by decide

/-!  Claim theorems. -/

/-- C1: the claim says that with a usable directory argument every returned
destination is placed in that directory.  The code disagrees with the claim
and with its own documentation: `processSources` calls `destination(src)`
without forwarding `dir`, so with glob result `["lang/en.json"]`, patterns
`"lang/*.json"` and directory `"out"` (whose creation succeeds, as the
successful `normalizeDir` conjunct shows), `convert` returns destination
`"lang/en.js"` instead of `"out/en.js"` — even though `destination` itself,
given the directory, would produce `"out/en.js"`. -/
theorem convert_drops_directory_argument :
    normalizeDir (fun _ => true) (JSVal.str "out") = some "out" ∧
    destination "lang/en.json" (some "out") = "out/en.js" ∧
    (convert (fun _ => ["lang/en.json"]) (fun _ => true)
        (JSVal.str "lang/*.json") (JSVal.str "out")).dests = ["lang/en.js"] ∧
    (convert (fun _ => ["lang/en.json"]) (fun _ => true)
        (JSVal.str "lang/*.json") (JSVal.str "out")).dests ≠ ["out/en.js"] := by
  decide

/-- C2 counterexample: `" "` is a non-empty string, yet `normalizePatterns`
does not return `[" "]` for it — the `/\S/` test in `nonEmptyStr` rejects
whitespace-only strings, so the default pattern is returned instead. -/
theorem normalizePatterns_whitespace_counterexample :
    (" " : String) ≠ "" ∧
    normalizePatterns (JSVal.str " ") ≠ [JSPrim.str " "] ∧
    normalizePatterns (JSVal.str " ") = [JSPrim.str "lang/*.json"] := by
  decide

/-- C2 (amended): for every string `s` containing at least one
non-whitespace character (the code's `nonEmptyStr` test), the pattern
normalizer returns the single-element sequence `[s]`; whitespace-only
strings are instead treated as empty input. -/
theorem normalizePatterns_nonwhitespace_singleton (s : String)
    (h : nonEmptyStr (JSVal.str s) = true) :
    normalizePatterns (JSVal.str s) = [JSPrim.str s] := by
  simp [normalizePatterns, h]

/-- C2 witness: the amended statement at the concrete input `"a/*.json"`. -/
theorem normalizePatterns_nonwhitespace_singleton_witness :
    normalizePatterns (JSVal.str "a/*.json") = [JSPrim.str "a/*.json"] :=
  normalizePatterns_nonwhitespace_singleton "a/*.json" (by decide)

/-- C3: `destination` joins the directory reference (when present — a
validated directory reference is never the empty string) or else the
source's own containing directory, with the base name minus its final two
characters; `"lang/en.json"` yields `"lang/en.js"` with no directory and
`"out/en.js"` with directory `"out"`; truncation is unconditional: a
non-`.json` base name such as `"en.txt"` also loses its last two
characters. -/
theorem destination_spec (src : String) (d : Option String) (h : d ≠ some "") :
    destination src d
      = NodePath.join2 (d.getD (NodePath.dirname src))
          ⟨(NodePath.basename src).toList.take ((NodePath.basename src).length - 2)⟩ ∧
    destination "lang/en.json" none = "lang/en.js" ∧
    destination "lang/en.json" (some "out") = "out/en.js" ∧
    destination "lang/en.txt" none = "lang/en.t" := by
  refine ⟨?_, by decide, by decide, by decide⟩
  cases d with
  | none => rfl
  | some s =>
    have hs : s ≠ "" := fun hh => h (by rw [hh])
    simp [destination, hs]

/-- C3 witness: the statement at `src = "lang/en.json"`, `d = some "out"`. -/
theorem destination_spec_witness :
    destination "lang/en.json" (some "out") = "out/en.js" :=
  (destination_spec "lang/en.json" (some "out") (by decide)).2.2.1

/-- C4: every input that is not a non-empty string and is not an array with
a non-empty-string element (this covers empty strings, whitespace-only
strings, null/absent, non-array non-string values, and arrays with no
non-empty-string elements) normalizes to the default `["lang/*.json"]`;
the function is total, so no error is raised. -/
theorem normalizePatterns_defaults (p : JSVal) (h1 : nonEmptyStr p = false)
    (h2 : ∀ xs, p = JSVal.arr xs → xs.any JSPrim.nonEmptyStr = false) :
    normalizePatterns p = [JSPrim.str "lang/*.json"] := by
  cases p with
  | str s => simp [normalizePatterns, h1, isArray]
  | arr xs => simp [normalizePatterns, h1, isArray, elems, h2 xs rfl]
  | null => simp [normalizePatterns, nonEmptyStr, isArray]
  | other => simp [normalizePatterns, nonEmptyStr, isArray]

/-- C4 witness: the statement at the concrete input `""`. -/
theorem normalizePatterns_defaults_witness :
    normalizePatterns (JSVal.str "") = [JSPrim.str "lang/*.json"] :=
  normalizePatterns_defaults (JSVal.str "") (by decide)
    (fun _ hq => JSVal.noConfusion hq)

/-- C5: an array containing at least one non-empty string normalizes to
exactly its non-empty-string elements in their original order, and in
particular `["", "a/*.json", "  ", "b/*.json"]` normalizes to
`["a/*.json", "b/*.json"]`. -/
theorem normalizePatterns_filters_array (xs : List JSPrim)
    (h : xs.any JSPrim.nonEmptyStr = true) :
    normalizePatterns (JSVal.arr xs) = xs.filter JSPrim.nonEmptyStr ∧
    normalizePatterns (JSVal.arr [JSPrim.str "", JSPrim.str "a/*.json",
        JSPrim.str "  ", JSPrim.str "b/*.json"])
      = [JSPrim.str "a/*.json", JSPrim.str "b/*.json"] := by
  refine ⟨?_, by decide⟩
  simp [normalizePatterns, nonEmptyStr, isArray, elems, h]

/-- C5 witness: the statement at the concrete array
`["", "a/*.json", "  ", "b/*.json"]`. -/
theorem normalizePatterns_filters_array_witness :
    normalizePatterns (JSVal.arr [JSPrim.str "", JSPrim.str "a/*.json",
        JSPrim.str "  ", JSPrim.str "b/*.json"])
      = List.filter JSPrim.nonEmptyStr [JSPrim.str "", JSPrim.str "a/*.json",
          JSPrim.str "  ", JSPrim.str "b/*.json"] :=
  (normalizePatterns_filters_array [JSPrim.str "", JSPrim.str "a/*.json",
      JSPrim.str "  ", JSPrim.str "b/*.json"] (by decide)).1

/-- C6: on every input whatsoever, `normalizePatterns` returns a non-empty
sequence each of whose elements passes the non-empty-string test; being a
total function, it never raises an error. -/
theorem normalizePatterns_always_valid (p : JSVal) :
    normalizePatterns p ≠ [] ∧
    ∀ v ∈ normalizePatterns p, JSPrim.nonEmptyStr v = true := by
  by_cases h1 : nonEmptyStr p
  · cases p with
    | str s =>
      simp only [normalizePatterns, h1, if_true]
      refine ⟨by simp, ?_⟩
      intro v hv
      simp only [List.mem_singleton] at hv
      subst hv
      simpa [nonEmptyStr, JSPrim.nonEmptyStr] using h1
    | arr xs => simp [nonEmptyStr] at h1
    | null => simp [nonEmptyStr] at h1
    | other => simp [nonEmptyStr] at h1
  · by_cases h2 : isArray p && (elems p).any JSPrim.nonEmptyStr
    · have ha : isArray p = true := (Bool.and_elim_left h2)
      have hb : (elems p).any JSPrim.nonEmptyStr = true := (Bool.and_elim_right h2)
      have hmain : normalizePatterns p = (elems p).filter JSPrim.nonEmptyStr := by
        simp [normalizePatterns, h1, ha, hb]
      rw [hmain]
      obtain ⟨x, hx, hpx⟩ := List.any_eq_true.mp hb
      refine ⟨List.ne_nil_of_mem (List.mem_filter.mpr ⟨hx, hpx⟩), ?_⟩
      intro v hv
      exact (List.mem_filter.mp hv).2
    · have hmain : normalizePatterns p = [JSPrim.str "lang/*.json"] := by
        rcases Bool.and_eq_false_iff.mp (Bool.eq_false_iff.mpr h2) with ha | hb
        · simp [normalizePatterns, h1, ha]
        · simp [normalizePatterns, h1, hb]
      rw [hmain]
      exact ⟨by simp, by intro v hv; simp only [List.mem_singleton] at hv; subst hv; decide⟩

/-- C6 witness: the statement at the concrete input `null`. -/
theorem normalizePatterns_always_valid_witness :
    normalizePatterns JSVal.null ≠ [] ∧
    JSPrim.nonEmptyStr (JSPrim.str "lang/*.json") = true :=
  ⟨(normalizePatterns_always_valid JSVal.null).1,
   (normalizePatterns_always_valid JSVal.null).2 (JSPrim.str "lang/*.json") (by decide)⟩

/-- C7: `normalizeDir` returns `none` when the input is not a non-empty
string or when directory creation fails (the failure is absorbed, never
propagated — the function is total), and returns the input string unchanged
when creation succeeds. -/
theorem normalizeDir_spec (mk : String → Bool) (d : JSVal) :
    (nonEmptyStr d = false → normalizeDir mk d = none) ∧
    (∀ s, d = JSVal.str s → mk s = false → normalizeDir mk d = none) ∧
    (∀ s, d = JSVal.str s → nonEmptyStr d = true → mk s = true →
      normalizeDir mk d = some s) := by
  refine ⟨?_, ?_, ?_⟩
  · intro h; simp [normalizeDir, h]
  · intro s hd hmk; subst hd
    by_cases h : nonEmptyStr (JSVal.str s) <;> simp [normalizeDir, h, hmk]
  · intro s hd hne hmk; subst hd; simp [normalizeDir, hne, hmk]

/-- C7 witness: the statement at concrete inputs — a failing creation on
`"out"`, a succeeding creation on `"out"`, and the non-string input
`null`. -/
theorem normalizeDir_spec_witness :
    normalizeDir (fun _ => false) (JSVal.str "out") = none ∧
    normalizeDir (fun _ => true) (JSVal.str "out") = some "out" ∧
    normalizeDir (fun _ => true) JSVal.null = none :=
  ⟨(normalizeDir_spec (fun _ => false) (JSVal.str "out")).2.1 "out" rfl rfl,
   (normalizeDir_spec (fun _ => true) (JSVal.str "out")).2.2 "out" rfl (by decide) rfl,
   (normalizeDir_spec (fun _ => true) JSVal.null).1 (by decide)⟩

/-- C8: `findSources` is the glob resolver's output filtered, in order, to
the paths whose extension is exactly the 5-character `".json"`; every
returned path has that extension, the result is a sublist (order
preserved) of the glob output, and an empty glob result gives an empty
result rather than an error. -/
theorem findSources_spec (glob : List JSPrim → List String)
    (patterns : List JSPrim) :
    findSources glob patterns
      = (glob patterns).filter (fun f => NodePath.extname f == ".json") ∧
    (∀ f ∈ findSources glob patterns, NodePath.extname f = ".json") ∧
    (findSources glob patterns).Sublist (glob patterns) ∧
    (".json" : String).length = 5 ∧
    (glob patterns = [] → findSources glob patterns = []) := by
  refine ⟨rfl, ?_, ?_, by decide, ?_⟩
  · intro f hf
    have hm := (List.mem_filter.mp hf).2
    exact eq_of_beq hm
  · exact List.filter_sublist (glob patterns)
  · intro h; simp [findSources, h]

/-- C8 witness: the statement at a glob resolver returning no matches. -/
theorem findSources_spec_witness :
    findSources (fun _ => []) [JSPrim.str "lang/*.json"] = [] :=
  (findSources_spec (fun _ => []) [JSPrim.str "lang/*.json"]).2.2.2.2 rfl

/-- C9: `convert` returns two sequences of equal length, the i-th
destination being derived (by `destination`) from the i-th source. -/
theorem convert_pairwise (glob : List JSPrim → List String)
    (mk : String → Bool) (patterns dir : JSVal) :
    (convert glob mk patterns dir).dests.length
      = (convert glob mk patterns dir).srces.length ∧
    ∀ i : Nat, (convert glob mk patterns dir).dests[i]?
      = ((convert glob mk patterns dir).srces[i]?).map
          (fun src => destination src none) := by
  constructor
  · simp [convert, processSources]
  · intro i
    simp [convert, processSources, List.getElem?_map]

/-- C10: the destination sequence returned by `convert` does not depend on
the directory argument — with the same glob resolver, creation behaviour
and patterns, two calls with different directory arguments return
identical destination sequences, because `processSources` drops the
normalized directory before calling `destination`. -/
theorem convert_dests_ignore_dir (glob : List JSPrim → List String)
    (mk : String → Bool) (patterns dir1 dir2 : JSVal) :
    (convert glob mk patterns dir1).dests
      = (convert glob mk patterns dir2).dests := rfl
